import Mathlib

/-!
Verification of the devservers orchestrator core against its source.

This file gives a shallow embedding of the parts of the daemon that the
verified properties talk about:

* the port-template engine (env.ts: applyPortTemplate, resolveEnv),
* the compose-file service rewriting (compose.ts: prefixServiceName,
  rewriteLocalPortReferences, parseComposeServices),
* the shared dependency graph (createDependencyGraph, collectDependencies,
  collectDependents, topoSort),
* the port registry (port-registry.ts: normalizePort, buildReservedPorts,
  findNextAvailablePort, ensureRegistryPort),
* the catalog store (config.ts: upsertService),
* the configuration schema (devServerServiceSchema),
* the tmux process supervisor (tmux.ts: startWindow and its status probes),
* the orchestrator start path of the daemon entry point
  (resolveStartSettings, startServiceWindow, the start route handler),
* the log-detector port extraction (extractPortFromLogs and PORT_REGEX).

JavaScript strings are modelled as Lean String / List Char; JS numbers that
the code has already validated to be integers are modelled as Nat (or Int
where a sign matters); records are modelled as association lists; functions
that throw are modelled with Except; file writes are modelled by returning
the new file contents together with a flag saying whether a write happened.
The regex replacements are implemented as explicit left-to-right scanners
that follow the JS regex semantics of the concrete patterns in the source.
Scanners that skip past a whole match recurse on a character budget (one
unit per consumed character, initialised with the string length, which is
always sufficient); this keeps every definition executable by the kernel.
-/

set_option maxRecDepth 8000

namespace DevServers

/-! ## Character classes used by the source regexes -/

/-- The character class of the service-name pattern
(lower or upper letters, digits, dot, underscore, hyphen) from the shared
schema, which is also the capture class of the PORT reference tokens in
env.ts and compose.ts. -/
def isNameChar (c : Char) : Bool :=
  c.isAlphanum || c = '.' || c = '_' || c = '-'

/-- JS regex word characters (letters, digits, underscore), the class
deciding the word boundary in the own-port token pattern of env.ts. -/
def isWordChar (c : Char) : Bool :=
  c.isAlphanum || c = '_'

/-! ## Template engine (env.ts)

The source recognises two token shapes in environment values:

  NAMED_PORT_TOKEN  =  dollar, open brace, PORT, colon, name, close brace
  SELF_PORT_TOKEN   =  dollar-brace-PORT-brace, or dollar-PORT at a word
                       boundary

and replaces them with a global regex replace. The scanner below walks the
string left to right exactly like the JS global replace: at each position
it tries to match the token; on a match it emits the replacement and
resumes after the match, otherwise it emits one character and moves on by
one. A named token matches exactly when the dollar-brace-PORT-colon prefix
is followed by a nonempty run of name characters whose first non-name
successor is a closing brace (the name class excludes the brace, so the
greedy run cannot backtrack). -/

/-- Does a named PORT token start at this exact position? On a match,
return the captured name and the input following the token. The token is
the dollar-brace-PORT-colon prefix followed by a nonempty run of name
characters whose first non-name successor is the closing brace. -/
def namedTokenAt (s : List Char) : Option (String × List Char) :=
  match s with
  | '$' :: '\x7b' :: 'P' :: 'O' :: 'R' :: 'T' :: ':' :: rest =>
    match rest.dropWhile isNameChar with
    | '\x7d' :: rest' =>
      if (rest.takeWhile isNameChar).isEmpty then none
      else some (String.mk (rest.takeWhile isNameChar), rest')
    | _ => none
  | _ => none

/-- Left-to-right global replacement of named PORT tokens, on a character
budget (one unit per consumed character; the budget never runs out when
initialised with the length of the input). The replacer receives the
captured service name and produces the full replacement text (the source
returns the original token when it declines to substitute). At a position
with no token, one character is emitted and the scan resumes at the next
position, exactly like a global regex replace. -/
def replaceNamedTokensF (repl : String → String) : Nat → List Char → List Char
  | 0, s => s
  | _ + 1, [] => []
  | fuel + 1, c :: rest =>
    match namedTokenAt (c :: rest) with
    | some r => (repl r.1).data ++ replaceNamedTokensF repl fuel r.2
    | none => c :: replaceNamedTokensF repl fuel rest

/-- Global replacement of named PORT tokens in a string. -/
def replaceNamedTokens (repl : String → String) (value : String) : String :=
  String.mk (replaceNamedTokensF repl value.data.length value.data)

/-- True when an own-port token occurrence ends at a JS word boundary:
end of input or a non-word character follows. -/
def boundaryOk : List Char → Bool
  | [] => true
  | c :: _ => !isWordChar c

/-- Does an own-port token start at this exact position? The braced
alternative is tried first; the bare dollar-PORT alternative requires the
word boundary. Returns the input following the token. -/
def selfTokenAt (s : List Char) : Option (List Char) :=
  match s with
  | '$' :: '\x7b' :: 'P' :: 'O' :: 'R' :: 'T' :: '\x7d' :: rest => some rest
  | '$' :: 'P' :: 'O' :: 'R' :: 'T' :: rest =>
    if boundaryOk rest then some rest else none
  | _ => none

/-- Left-to-right global replacement of the own-port tokens with the
decimal digits of the resolved port, on a character budget. -/
def replaceSelfTokensF (portStr : List Char) : Nat → List Char → List Char
  | 0, s => s
  | _ + 1, [] => []
  | fuel + 1, c :: rest =>
    match selfTokenAt (c :: rest) with
    | some r => portStr ++ replaceSelfTokensF portStr fuel r
    | none => c :: replaceSelfTokensF portStr fuel rest

/-- Global replacement of the own-port tokens in a string. -/
def replaceSelfTokens (portStr : String) (value : String) : String :=
  String.mk (replaceSelfTokensF portStr.data value.data.length value.data)

/-- isValidPort from env.ts (and its copies in the daemon entry point):
a number strictly positive and at most 65535. Absent values are invalid. -/
def isValidPort : Option Nat → Bool
  | none => false
  | some p => 0 < p && p ≤ 65535

/-- Lookup in the servicePorts record. A record value may itself be
undefined (the daemon builds a record of string to number-or-undefined),
which behaves exactly like an absent key. -/
def lookupServicePort (servicePorts : List (String × Option Nat)) (name : String) : Option Nat :=
  match servicePorts.find? (fun e => e.1 == name) with
  | none => none
  | some e => e.2

/-- The literal text of a named PORT token for a given service name. -/
def namedToken (name : String) : String :=
  "$\x7bPORT:" ++ name ++ "\x7d"

/-- The replacer of the first pass of applyPortTemplate: substitute the
target service's port when it is valid, otherwise keep the token verbatim. -/
def namedReplacer (servicePorts : List (String × Option Nat)) (name : String) : String :=
  match lookupServicePort servicePorts name with
  | some targetPort =>
    if isValidPort (some targetPort) then toString targetPort else namedToken name
  | none => namedToken name

/-- First pass of applyPortTemplate (env.ts lines 13-19): named tokens. -/
def namedPass (value : String) (servicePorts : List (String × Option Nat)) : String :=
  replaceNamedTokens (namedReplacer servicePorts) value

/-- Second pass of applyPortTemplate (env.ts line 25): own-port tokens. -/
def selfPass (value : String) (port : Nat) : String :=
  replaceSelfTokens (toString port) value

/-- applyPortTemplate from env.ts: expand named tokens first, then the
own-port tokens when the own port is valid. The function is total: it
never produces an error. -/
def applyPortTemplate (value : String) (port : Option Nat)
    (servicePorts : List (String × Option Nat)) : String :=
  let resolved := namedPass value servicePorts
  match port with
  | some p => if isValidPort (some p) then selfPass resolved p else resolved
  | none => resolved

/-- resolveEnv from env.ts: apply the template to every value of the map. -/
def resolveEnv (env : List (String × String)) (port : Option Nat)
    (servicePorts : List (String × Option Nat)) : List (String × String) :=
  env.map (fun e => (e.1, applyPortTemplate e.2 port servicePorts))

/-! ## Association-list model of JS Map / plain-object records

JS Map.set overwrites in place (keeping the insertion position) and appends
new keys at the end; object spread with a fresh key appends as well. -/

/-- Map.get / record access. -/
def mapGet {α : Type} (m : List (String × α)) (k : String) : Option α :=
  (m.find? (fun e => e.1 == k)).map Prod.snd

/-- Map.has. -/
def mapHas {α : Type} (m : List (String × α)) (k : String) : Bool :=
  (mapGet m k).isSome

/-- Map.set: overwrite in place or append. -/
def mapSet {α : Type} (m : List (String × α)) (k : String) (v : α) : List (String × α) :=
  match m.findIdx? (fun e => e.1 == k) with
  | some i => m.set i (k, v)
  | none => m ++ [(k, v)]

/-! ## Compose loader rewriting (compose.ts) -/

/-- A registered project (shared schema / config registeredProjects). -/
structure RegisteredProject where
  name : String
  path : String
  isMonorepo : Option Bool
deriving DecidableEq

/-- Character-list prefix test (the semantics of JS String.startsWith). -/
def charsStartWith : List Char → List Char → Bool
  | _, [] => true
  | [], _ :: _ => false
  | c :: s, p :: ps => c == p && charsStartWith s ps

/-- JS String.startsWith. -/
def strStartsWith (s pre : String) : Bool :=
  charsStartWith s.data pre.data

/-- prefixServiceName from compose.ts: prepend the project prefix unless
the local name already carries it. -/
def prefixServiceName (projectName serviceName : String) : String :=
  if strStartsWith serviceName (projectName ++ "_") then serviceName
  else projectName ++ "_" ++ serviceName

/-- rewriteLocalPortReferences from compose.ts: rewrite each named PORT
token whose captured name is a local service name to the token of the
prefixed name; keep every other token verbatim. The token pattern is the
same as the named pattern of env.ts. -/
def rewriteLocalPortReferences (value : String) (localServiceNames : List String)
    (projectName : String) : String :=
  replaceNamedTokens (fun localName =>
    if localServiceNames.contains localName then
      namedToken (prefixServiceName projectName localName)
    else namedToken localName) value

/-- The already-normalised fields of one compose service entry that the
verified properties touch: command (string or list already joined by the
reader), the depends-on list (list or map keys already normalised) and the
environment map (object or KEY=VALUE list already normalised). The cwd
resolution, port, port-mode and the opaque source definition are not
modelled. -/
structure ComposeDef where
  command : String
  dependsOn : Option (List String)
  env : Option (List (String × String))
deriving DecidableEq

/-- The output shape of the compose parser that the verified properties
touch. -/
structure ComposeService where
  name : String
  command : String
  dependsOn : Option (List String)
  env : Option (List (String × String))
  projectName : String
deriving DecidableEq

/-- parseComposeServices from compose.ts (lines 211-259), on the
already-normalised entries of the services mapping: collect the local
names up front, then produce each service with the prefixed name, the
dependencies mapped through the prefixer when local, and the environment
values run through rewriteLocalPortReferences. -/
def parseComposeServices (project : RegisteredProject)
    (rawServices : List (String × ComposeDef)) : List ComposeService :=
  let localServiceNames := rawServices.map Prod.fst
  rawServices.map (fun entry =>
    let localName := entry.1
    let definition := entry.2
    { name := prefixServiceName project.name localName
      command := definition.command
      dependsOn := definition.dependsOn.map (List.map (fun dependencyName =>
        if localServiceNames.contains dependencyName then
          prefixServiceName project.name dependencyName
        else dependencyName))
      env := definition.env.map (List.map (fun kv =>
        (kv.1, rewriteLocalPortReferences kv.2 localServiceNames project.name)))
      projectName := project.name })

/-! ## Service data model and dependency graph (shared package) -/

/-- The port-mode enum of the shared schema. -/
inductive PortMode
  | static
  | detect
  | registry
deriving DecidableEq

/-- A validated service of the merged catalog (the DevServerService type of
the shared package; compose-only metadata is carried separately by the
daemon's sources map). -/
structure Service where
  name : String
  cwd : String
  command : String
  dependsOn : Option (List String)
  env : Option (List (String × String))
  port : Option Nat
  portMode : Option PortMode
  lastStartedAt : Option String
deriving DecidableEq

/-- The validation errors thrown by createDependencyGraph, one constructor
per throw site. The thrown message texts are reproduced by
graphErrorMessage below. -/
inductive GraphError
  | duplicateDeps (service : String) (dups : List String)
  | selfDependency (service : String)
  | missingDep (service : String) (dep : String)
  | cycle (path : List String)
deriving DecidableEq

/-- The exact message text of each createDependencyGraph throw site. -/
def graphErrorMessage : GraphError → String
  | .duplicateDeps s dups =>
    "Service \"" ++ s ++ "\" has duplicate dependencies: " ++ String.intercalate ", " dups ++ "."
  | .selfDependency s => "Service \"" ++ s ++ "\" cannot depend on itself."
  | .missingDep s d => "Service \"" ++ s ++ "\" depends on missing service \"" ++ d ++ "\"."
  | .cycle path => "Dependency cycle detected: " ++ String.intercalate " -> " path ++ "."

/-- The DependencyGraph record of the shared package. -/
structure DependencyGraph where
  servicesByName : List (String × Service)
  depsByName : List (String × List String)
  dependentsByName : List (String × List String)
  order : List String
deriving DecidableEq

/-- The duplicate-filter of createDependencyGraph: the occurrences of a
dependency beyond its first, in order. -/
def findDuplicates (seen deps : List String) : List String :=
  match deps with
  | [] => []
  | d :: rest =>
    if seen.contains d then d :: findDuplicates seen rest
    else findDuplicates (d :: seen) rest

/-- The state of the cycle-detecting depth-first search of
createDependencyGraph: the visiting set, the visited set and the explicit
stack used to report the cycle path. -/
structure CycleSt where
  visiting : List String
  visited : List String
  stack : List String

/-- The recursive visit of the cycle detection, on a budget of nesting
levels (each nested call inserts a fresh name into the visiting set, so a
budget above the number of services never runs out). -/
def cycleVisit (depsByName : List (String × List String)) :
    Nat → String → CycleSt → Except GraphError CycleSt
  | 0, _, st => pure st
  | fuel + 1, name, st =>
    if st.visited.contains name then pure st
    else if st.visiting.contains name then
      let startIndex := (st.stack.findIdx? (· == name)).getD 0
      throw (.cycle (st.stack.drop startIndex ++ [name]))
    else do
      let st1 : CycleSt :=
        { st with visiting := name :: st.visiting, stack := st.stack ++ [name] }
      let st2 ← ((mapGet depsByName name).getD []).foldlM
        (fun s dep => cycleVisit depsByName fuel dep s) st1
      pure { visiting := st2.visiting.erase name
             visited := name :: st2.visited
             stack := st2.stack.dropLast }

/-- The per-service validation pass of createDependencyGraph: reject
duplicate dependency entries, then self-dependency, then (per dependency,
in order) missing targets, while pushing this service onto each
dependency's dependents list. Accumulates (depsByName, dependentsByName). -/
def processServiceDeps (servicesByName : List (String × Service))
    (acc : List (String × List String) × List (String × List String))
    (service : Service) :
    Except GraphError (List (String × List String) × List (String × List String)) :=
  let deps := service.dependsOn.getD []
  let duplicates := findDuplicates [] deps
  if duplicates ≠ [] then throw (.duplicateDeps service.name duplicates)
  else if deps.contains service.name then throw (.selfDependency service.name)
  else do
    let dependents ← deps.foldlM (fun m dep =>
      if mapHas servicesByName dep then
        pure (mapSet m dep ((mapGet m dep).getD [] ++ [service.name]))
      else throw (.missingDep service.name dep)) acc.2
    pure (mapSet acc.1 service.name deps, dependents)

/-- createDependencyGraph from the shared package: build the name map,
run the per-service validation in catalog order, fill empty dependents
entries, then run the cycle detection over the catalog order. -/
def createDependencyGraph (services : List Service) : Except GraphError DependencyGraph := do
  let order := services.map (·.name)
  let servicesByName := services.foldl (fun m s => mapSet m s.name s) []
  let maps ← services.foldlM (processServiceDeps servicesByName) ([], [])
  let depsByName := maps.1
  let dependentsByName := order.foldl
    (fun m name => if mapHas m name then m else mapSet m name []) maps.2
  let _ ← order.foldlM
    (fun st name => cycleVisit depsByName (order.length + 1) name st)
    (CycleSt.mk [] [] [])
  pure { servicesByName, depsByName, dependentsByName, order }

/-- The closure collector shared by collectDependencies and
collectDependents: insert the target, then visit its neighbours, skipping
already-collected names; insertion order is preserved. Runs on a nesting
budget (each nested call inserts a fresh name first, so a budget above the
number of services never runs out). -/
def collectVisit (neighbors : String → List String) :
    Nat → String → List String → List String
  | 0, _, result => result
  | fuel + 1, target, result =>
    if result.contains target then result
    else (neighbors target).foldl
      (fun acc dep => collectVisit neighbors fuel dep acc) (result ++ [target])

/-- ensureServiceExists from the shared package. -/
def ensureServiceExists (graph : DependencyGraph) (name : String) : Except String Unit :=
  if mapHas graph.servicesByName name then pure ()
  else throw ("Unknown service \"" ++ name ++ "\".")

/-- collectDependencies from the shared package: the dependency closure of
a name, including the name itself, in depth-first insertion order. -/
def collectDependencies (graph : DependencyGraph) (name : String) :
    Except String (List String) := do
  let _ ← ensureServiceExists graph name
  pure (collectVisit (fun t => (mapGet graph.depsByName t).getD [])
    (graph.order.length + 1) name [])

/-- collectDependents from the shared package: the transitive dependents
closure of a name, including the name itself. -/
def collectDependents (graph : DependencyGraph) (name : String) :
    Except String (List String) := do
  let _ ← ensureServiceExists graph name
  pure (collectVisit (fun t => (mapGet graph.dependentsByName t).getD [])
    (graph.order.length + 1) name [])

/-- The recursive visit of topoSort: skip names outside the allowed subset
or already visited; otherwise mark visited, visit the dependencies, then
append the name. Runs on a nesting budget (each nested call marks a fresh
name visited first, so a budget above the number of services never runs
out). State is (visited, result). -/
def topoVisit (deps : String → List String) (allowed : List String) :
    Nat → String → (List String × List String) → (List String × List String)
  | 0, _, st => st
  | fuel + 1, name, st =>
    if !allowed.contains name || st.1.contains name then st
    else
      let st1 := (deps name).foldl
        (fun acc dep => topoVisit deps allowed fuel dep acc) (name :: st.1, st.2)
      (st1.1, st1.2 ++ [name])

/-- topoSort from the shared package: dependencies-first order of the given
subset, using the graph's insertion order as the stable tiebreak. -/
def topoSort (graph : DependencyGraph) (names : List String) : List String :=
  (graph.order.foldl
    (fun st name =>
      topoVisit (fun t => (mapGet graph.depsByName t).getD [])
        names (graph.order.length + 1) name st)
    ([], [])).2

/-! ## Port registry (port-registry.ts)

The registry file holds a version marker and a map from service name to
port; the parser accepts only integer values in 1..65535. ensureRegistryPort
reads the file, returns an existing entry unchanged, and otherwise scans
for a free port, appends the mapping and rewrites the file. The model
below receives the parsed map and the availability probe (the source
default binds a TCP listener on loopback; callers may inject a predicate)
and returns the result record of the source; created is true exactly on
the path that invokes writePortRegistry with the returned map, so
created = false means the file is not touched. -/

def DEFAULT_REGISTRY_PORT : Nat := 3100

/-- The validity condition the registry parser imposes on every entry:
an integer, strictly positive, at most 65535. -/
def registryEntryValid (p : Nat) : Bool :=
  0 < p && p ≤ 65535

/-- A parsed registry map: every stored port passed the parser's check. -/
def validRegistryPorts (ports : List (String × Nat)) : Prop :=
  ∀ e ∈ ports, registryEntryValid e.2 = true

/-- normalizePort from port-registry.ts: keep integers in 1..65535,
anything else becomes undefined. -/
def normalizePort (port : Nat) : Option Nat :=
  if port = 0 || 65535 < port then none else some port

/-- buildReservedPorts from port-registry.ts: normalize and keep the valid
reserved ports (the source collects them into a Set; only membership is
ever consumed, which the list models). -/
def buildReservedPorts (ports : List Nat) : List Nat :=
  ports.filterMap normalizePort

/-- The scan loop of findNextAvailablePort, iterating ports upward on a
step budget; the budget is chosen by the caller so that it covers every
port through 65535, after which the loop fails like the source. -/
def findPortLoop (check : Nat → Bool) (usedPorts : List Nat) : Nat → Nat → Option Nat
  | _, 0 => none
  | port, fuel + 1 =>
    if 65535 < port then none
    else if usedPorts.contains port then findPortLoop check usedPorts (port + 1) fuel
    else if check port then some port
    else findPortLoop check usedPorts (port + 1) fuel

/-- findNextAvailablePort from port-registry.ts: normalise the start (fall
back to 3100), then scan upward through 65535, skipping used ports, and
return the first port whose availability probe succeeds; none models the
NoFreePort throw. -/
def findNextAvailablePort (start : Nat) (usedPorts : List Nat) (check : Nat → Bool) : Option Nat :=
  let normalizedStart := (normalizePort start).getD DEFAULT_REGISTRY_PORT
  findPortLoop check usedPorts normalizedStart (65536 - normalizedStart)

/-- The options record of ensureRegistryPort. The availability probe is
passed separately to the model (the source defaults it to the TCP bind
probe, which is environment behaviour). -/
structure EnsureRegistryPortOptions where
  preferredPort : Option Nat
  reservedPorts : List Nat
  basePort : Option Nat
deriving DecidableEq

/-- The result record of ensureRegistryPort: the assigned port, the map the
registry file holds afterwards, and whether a new entry was created (the
file is rewritten exactly when created is true). -/
structure EnsureRegistryPortResult where
  port : Nat
  ports : List (String × Nat)
  created : Bool
deriving DecidableEq

/-- ensureRegistryPort from port-registry.ts, on the parsed registry map:
return an existing (truthy) entry without touching the file; otherwise
collect the used set (existing values plus normalised reserved ports),
scan from the preferred port (else base port, else 3100) and persist the
first free port. -/
def ensureRegistryPort (ports : List (String × Nat)) (serviceName : String)
    (opts : EnsureRegistryPortOptions) (check : Nat → Bool) :
    Except String EnsureRegistryPortResult :=
  let existing := (mapGet ports serviceName).getD 0
  if existing ≠ 0 then
    .ok { port := existing, ports := ports, created := false }
  else
    let usedPorts := ports.map Prod.snd ++ buildReservedPorts opts.reservedPorts
    let preferred := normalizePort (opts.preferredPort.getD (opts.basePort.getD DEFAULT_REGISTRY_PORT))
    match findNextAvailablePort (preferred.getD DEFAULT_REGISTRY_PORT) usedPorts check with
    | some assigned =>
      .ok { port := assigned, ports := mapSet ports serviceName assigned, created := true }
    | none => .error "No available ports found for port registry."

/-! ## Configuration schema (shared package, devServerServiceSchema) -/

/-- The JSON fields of a service definition submitted to the configuration
schema. Ports arrive as JSON numbers and are modelled as Int (the int check
of the schema cannot fail on this domain); env is a string-to-string record
(the schema's record check cannot fail on this domain); the datetime
grammar of lastStartedAt is orthogonal to every verified property and is
not modelled. -/
structure RawService where
  name : String
  cwd : String
  command : String
  dependsOn : Option (List String)
  env : List (String × String)
  port : Option Int
  portMode : Option String
deriving DecidableEq

/-- The name rule of the schema: nonempty and matching the name pattern. -/
def nameOk (s : String) : Bool :=
  !s.data.isEmpty && s.data.all isNameChar

/-- The rule for each dependsOn entry: nonempty, matching the name
pattern. -/
def depOk (s : String) : Bool :=
  !s.data.isEmpty && s.data.all isNameChar

/-- The portMode enum rule. -/
def portModeOk : Option String → Bool
  | none => true
  | some m => m == "static" || m == "detect" || m == "registry"

/-- devServerServiceSchema from the shared package: name (min 1, name
pattern), cwd (min 1), command (min 1), optional dependsOn entries (min 1,
name pattern), optional port (integer, strictly positive — the schema
declares no upper bound), optional portMode enum. -/
def devServerServiceAccepts (svc : RawService) : Bool :=
  nameOk svc.name &&
  decide (1 ≤ svc.cwd.length) &&
  decide (1 ≤ svc.command.length) &&
  (match svc.dependsOn with
   | none => true
   | some deps => deps.all depOk) &&
  (match svc.port with
   | none => true
   | some p => decide (0 < p)) &&
  portModeOk svc.portMode

/-! ## Catalog store (config.ts) -/

/-- The primary configuration file contents that the store operates on. -/
structure DevServerConfig where
  services : List Service
  registeredProjects : List RegisteredProject
deriving DecidableEq

/-- upsertService from config.ts (daemon): append when the name is new;
otherwise replace the entry in place, falling back to the previously
stored lastStartedAt when the incoming service has none. -/
def upsertService (config : DevServerConfig) (service : Service) : DevServerConfig :=
  match config.services.findIdx? (fun item => item.name == service.name) with
  | none => { config with services := config.services ++ [service] }
  | some existingIndex =>
    let existing := config.services.get? existingIndex
    let merged : Service :=
      { service with lastStartedAt :=
          match service.lastStartedAt with
          | some t => some t
          | none => existing.bind (·.lastStartedAt) }
    { config with services := config.services.set existingIndex merged }

/-! ## Process supervisor (tmux.ts)

The supervisor carries no state of its own: the observable multiplexer
session is the state. The model records the window names and, per window,
the pane observations the source queries (pane dead flag, pane current
command, pane scrollback). Pane observations after a start are environment
behaviour; the model lets the freshly created window report a live pane
running the typed command, which no verified property depends on. -/

/-- The pane commands treated as an idle shell. -/
def IDLE_COMMANDS : List String := ["zsh", "bash", "sh", "fish"]

/-- Observable state of the shared tmux session. -/
structure TmuxState where
  windows : List String
  paneDead : String → Bool
  paneCommand : String → String
  paneContent : String → String

/-- Pointwise update of an observation map. -/
def updFn {α : Type} (f : String → α) (k : String) (v : α) : String → α :=
  fun x => if x == k then v else f x

/-- startWindow from tmux.ts: when the window exists with a live pane
running a non-shell command, do nothing and return false; otherwise kill
any existing window, create a new detached window and type the command,
returning true. -/
def startWindow (service : Service) (st : TmuxState) : TmuxState × Bool :=
  let winExists := st.windows.contains service.name
  if winExists && !st.paneDead service.name &&
      !(IDLE_COMMANDS.contains (st.paneCommand service.name)) then
    (st, false)
  else
    let afterKill :=
      if winExists then { st with windows := st.windows.erase service.name } else st
    ({ afterKill with
        windows := afterKill.windows ++ [service.name]
        paneDead := updFn afterKill.paneDead service.name false
        paneCommand := updFn afterKill.paneCommand service.name service.command }, true)

/-- capturePane from tmux.ts: empty when the window does not exist,
otherwise the pane scrollback. -/
def capturePane (st : TmuxState) (windowName : String) : String :=
  if st.windows.contains windowName then st.paneContent windowName else ""

/-! ## Orchestrator start path (daemon entry point)

The daemon keys the per-service start on the merged catalog, the
source-of-truth map, the parsed registry file and the runtime maps. The
availability probe of the port registry (a loopback TCP bind in the
source) is passed in as a predicate, and the wall clock as the timestamp
string. The background log-detection task spawned on detect-mode starts
runs after the request finishes and is outside this model. -/

/-- Source-of-truth tag of a catalog entry. -/
inductive ServiceSource
  | config
  | compose
deriving DecidableEq

/-- The daemon state the start path reads and writes: the parsed registry
file, the configuration file, the tmux session and the runtime maps. -/
structure DaemonState where
  registry : List (String × Nat)
  config : DevServerConfig
  tmux : TmuxState
  runtimeDetectedPorts : List (String × Nat)
  runtimeLastStartedAt : List (String × String)

/-- The default port mode. -/
def DEFAULT_PORT_MODE : PortMode := .static

/-- resolvePortMode from the daemon entry point. -/
def resolvePortMode (service : Service) : PortMode :=
  service.portMode.getD DEFAULT_PORT_MODE

/-- resolveServicePort from the daemon entry point: registry mode reads the
registry map, detect mode prefers the runtime-detected port, static uses
the declared port. -/
def resolveServicePort (runtimeDetectedPorts : List (String × Nat)) (service : Service)
    (registryPorts : List (String × Nat)) : Option Nat :=
  match resolvePortMode service with
  | .registry => mapGet registryPorts service.name
  | .detect =>
    match mapGet runtimeDetectedPorts service.name with
    | some p => some p
    | none => service.port
  | .static => service.port

/-- collectReservedPorts from the daemon entry point: the declared ports of
every other service. -/
def collectReservedPorts (services : List Service) (currentName : String) : List Nat :=
  (services.filter (fun s => !(s.name == currentName))).filterMap (·.port)

/-- findService from the daemon entry point. -/
def findService (services : List Service) (name : String) : Option Service :=
  services.find? (fun s => s.name == name)

/-- resolveServicePorts from the daemon entry point: resolve every catalog
service's port from the registry file and runtime maps, then apply the
valid overrides. -/
def resolveServicePorts (st : DaemonState) (services : List Service)
    (overrides : List (String × Option Nat)) : List (String × Option Nat) :=
  let resolved := services.foldl
    (fun m item => mapSet m item.name (resolveServicePort st.runtimeDetectedPorts item st.registry))
    []
  overrides.foldl (fun m e => if isValidPort e.2 then mapSet m e.1 e.2 else m) resolved

/-- The result of resolveStartSettings. -/
structure StartSettings where
  portMode : PortMode
  resolvedPort : Option Nat
  baseline : String

/-- resolveStartSettings from the daemon entry point: registry mode obtains
(and possibly persists) a registry port, reserving the declared ports of
the other services, rethrowing any registry failure as the fixed message;
other modes take the declared port. Detect mode snapshots the pane as the
baseline. -/
def resolveStartSettings (avail : Nat → Bool) (services : List Service) (service : Service)
    (st : DaemonState) : Except String (StartSettings × DaemonState) :=
  let portMode := resolvePortMode service
  match portMode with
  | .registry =>
    let reservedPorts := collectReservedPorts services service.name
    match ensureRegistryPort st.registry service.name
        { preferredPort := service.port, reservedPorts := reservedPorts, basePort := none }
        avail with
    | .ok r =>
      .ok ({ portMode := portMode, resolvedPort := some r.port, baseline := "" },
           { st with registry := r.ports })
    | .error _ => .error "failed to read port registry"
  | _ =>
    let baseline := if portMode = .detect then capturePane st.tmux service.name else ""
    .ok ({ portMode := portMode, resolvedPort := service.port, baseline := baseline }, st)

/-- resolveSourceMeta from the daemon entry point: unknown names default to
config-sourced. -/
def resolveSourceMeta (sources : List (String × ServiceSource)) (serviceName : String) :
    ServiceSource :=
  (mapGet sources serviceName).getD .config

/-- updateLastStartedAt from the daemon entry point: record the runtime
timestamp; for config-sourced services also re-read the configuration,
upsert the entry with the new timestamp and write it back. -/
def updateLastStartedAt (service : Service) (lastStartedAt : String)
    (sourceMeta : ServiceSource) (st : DaemonState) : DaemonState :=
  let st1 := { st with
    runtimeLastStartedAt := mapSet st.runtimeLastStartedAt service.name lastStartedAt }
  match sourceMeta with
  | .compose => st1
  | .config =>
    match findService st1.config.services service.name with
    | none => st1
    | some current =>
      { st1 with config := upsertService st1.config { current with lastStartedAt := some lastStartedAt } }

/-- startServiceWindow from the daemon entry point: resolve the start
settings (registry allocation happens here), build the per-service port
map for template expansion, call the supervisor start, and only when a
start was issued record the timestamp (and, for detect mode, schedule the
background log detection, which is outside this model). The current
tmux.ts start ignores the port options object, so the port map is computed
and passed but does not influence the supervisor call. -/
def startServiceWindow (avail : Nat → Bool) (now : String) (services : List Service)
    (sources : List (String × ServiceSource)) (service : Service) (st : DaemonState) :
    Except String DaemonState := do
  let sourceMeta := resolveSourceMeta sources service.name
  let r ← resolveStartSettings avail services service st
  let settings := r.1
  let st1 := r.2
  let _servicePorts := resolveServicePorts st1 services [(service.name, settings.resolvedPort)]
  let startRes := startWindow service st1.tmux
  let st2 := { st1 with tmux := startRes.1 }
  if startRes.2 then
    pure (updateLastStartedAt service now sourceMeta st2)
  else
    pure st2

/-- The HTTP responses the start route can produce. -/
inductive HttpResponse
  | ok
  | badRequest (error : String)
  | notFound (error : String)
  | serverError (error : String)
deriving DecidableEq

/-- The per-target loop of the start route (the try/for of the handler):
look each ordered name up in the graph, issue its per-service start, and
stop at the first failure. Besides the final state it returns the names
for which a per-service start was issued (in order) and the first error. -/
def startOrderLoop (startFn : Service → DaemonState → Except String DaemonState)
    (servicesByName : List (String × Service)) (order : List String) (st : DaemonState) :
    DaemonState × List String × Option String :=
  match order with
  | [] => (st, [], none)
  | name :: rest =>
    match mapGet servicesByName name with
    | none =>
      startOrderLoop startFn servicesByName rest st
    | some target =>
      match startFn target st with
      | .ok st' =>
        let r := startOrderLoop startFn servicesByName rest st'
        (r.1, name :: r.2.1, r.2.2)
      | .error e => (st, [name], some e)

/-- The POST start route of the daemon on an already-resolved catalog
snapshot: 404 for unknown names, 400 with the thrown message for graph
validation failures, then the dependency closure in topological order is
started one at a time; the first per-service failure aborts the remaining
targets and yields a 500 with the error message, otherwise the route
returns ok. Also returns the final daemon state and the issued starts. -/
def postStart (avail : Nat → Bool) (now : String) (catalogServices : List Service)
    (sources : List (String × ServiceSource)) (name : String) (st : DaemonState) :
    HttpResponse × DaemonState × List String :=
  match findService catalogServices name with
  | none => (.notFound "service not found", st, [])
  | some service =>
    match createDependencyGraph catalogServices with
    | .error e => (.badRequest (graphErrorMessage e), st, [])
    | .ok graph =>
      match collectDependencies graph service.name with
      | .error _ => (.serverError "internal server error", st, [])
      | .ok depNames =>
        let order := topoSort graph depNames
        let r := startOrderLoop (startServiceWindow avail now catalogServices sources)
          graph.servicesByName order st
        match r.2.2 with
        | some e => (.serverError e, r.1, r.2.1)
        | none => (.ok, r.1, r.2.1)

/-! ## Log detector port extraction (daemon entry point)

PORT_REGEX is the case-insensitive global pattern: an optional http or
https scheme, one of the hosts localhost, 127.0.0.1, bracketed colon-colon
one, or 0.0.0.0, a colon, and a captured run of two to five digits.
extractPortFromLogs scans every line (skipping lines mentioning in-use
errors) and keeps the last candidate within 1..65535. -/

/-- Case-insensitive character comparison (the i flag). -/
def charCI (a b : Char) : Bool :=
  a.toLower == b.toLower

/-- Case-insensitive literal match: consume the literal from the head of
the input, returning the remainder. -/
def matchLitCI : List Char → List Char → Option (List Char)
  | [], s => some s
  | _ :: _, [] => none
  | l :: ls, c :: cs => if charCI c l then matchLitCI ls cs else none

/-- The host alternation of PORT_REGEX (the alternatives start with
distinct characters, none of which can follow a matched scheme, so the
first-match rule is deterministic). -/
def tryHost (s : List Char) : Option (List Char) :=
  match matchLitCI "localhost".data s with
  | some r => some r
  | none =>
    match matchLitCI "127.0.0.1".data s with
    | some r => some r
    | none =>
      match matchLitCI "[::1]".data s with
      | some r => some r
      | none => matchLitCI "0.0.0.0".data s

/-- Decimal value of a digit run. -/
def digitsVal (ds : List Char) : Nat :=
  ds.foldl (fun acc c => acc * 10 + (c.toNat - '0'.toNat)) 0

/-- Attempt PORT_REGEX at this exact position: optional scheme (https
preferred, then http; a leftover scheme can never begin a host, so failed
continuations cannot backtrack into a different prefix choice), then a
host, a colon, and a greedy run of two to five digits with nothing after
it in the pattern. Returns the captured value and the rest after the
match. -/
def tryMatchAt (s : List Char) : Option (Nat × List Char) :=
  let afterScheme :=
    match matchLitCI "https://".data s with
    | some r => r
    | none =>
      match matchLitCI "http://".data s with
      | some r => r
      | none => s
  match tryHost afterScheme with
  | none => none
  | some afterHost =>
    match afterHost with
    | ':' :: rest =>
      let digits := (rest.takeWhile Char.isDigit).take 5
      if 2 ≤ digits.length then some (digitsVal digits, rest.drop digits.length)
      else none
    | _ => none

/-- All matches of PORT_REGEX over a line in order (the global flag):
advance past each match, otherwise move one character, on a character
budget (every step consumes at least one character, so the line length is
always sufficient). -/
def scanPortsF : Nat → List Char → List Nat
  | 0, _ => []
  | fuel + 1, s =>
    match s with
    | [] => []
    | _ :: t =>
      match tryMatchAt s with
      | some r => r.1 :: scanPortsF fuel r.2
      | none => scanPortsF fuel t

/-- All captured values of PORT_REGEX over a line in order. -/
def scanPorts (s : List Char) : List Nat :=
  scanPortsF s.length s

/-- JS String.includes. -/
def containsSubstring (needle : List Char) : List Char → Bool
  | [] => needle.isEmpty
  | c :: t => charsStartWith (c :: t) needle || containsSubstring needle t

/-- JS String.split on the newline character: the segments between
newlines, keeping empty segments. -/
def splitOnNewline : List Char → List (List Char)
  | [] => [[]]
  | c :: t =>
    match splitOnNewline t with
    | [] => [[]]
    | cur :: rest => if c = '\n' then [] :: cur :: rest else (c :: cur) :: rest

/-- extractPortFromLogs from the daemon entry point: empty input yields
nothing; per line, skip lines whose lowercase text mentions in-use noise,
scan the remaining lines with PORT_REGEX and keep the last candidate
strictly between 0 and 65536. -/
def extractPortFromLogs (logs : String) : Option Nat :=
  if logs == "" then none
  else
    (splitOnNewline logs.data).foldl (fun latest line =>
      let lower := line.map Char.toLower
      if containsSubstring "in use".data lower ||
          containsSubstring "eaddrinuse".data lower then latest
      else
        (scanPorts line).foldl (fun acc port =>
          if 0 < port ∧ port ≤ 65535 then some port else acc) latest) none

/-! ## Concrete scenarios used by the verified properties -/

/-- An empty tmux session with all pane observations defaulted. -/
def emptyTmux : TmuxState :=
  { windows := [], paneDead := fun _ => false, paneCommand := fun _ => "",
    paneContent := fun _ => "" }

/-- The three-service catalog of the start-traversal scenario: db (static),
api (registry mode, preferred port 65535, depends on db), web (depends on
api and db). -/
def exCatalog : List Service :=
  [{ name := "db", cwd := "/repo", command := "run-db", dependsOn := none,
     env := none, port := some 5432, portMode := none, lastStartedAt := none },
   { name := "api", cwd := "/repo", command := "run-api", dependsOn := some ["db"],
     env := none, port := some 65535, portMode := some .registry, lastStartedAt := none },
   { name := "web", cwd := "/repo", command := "run-web", dependsOn := some ["api", "db"],
     env := none, port := none, portMode := none, lastStartedAt := none }]

/-- Daemon state for the start-traversal scenario: the catalog services in
the configuration file, empty registry, no windows. -/
def exState0 : DaemonState :=
  { registry := [], config := { services := exCatalog, registeredProjects := [] },
    tmux := emptyTmux, runtimeDetectedPorts := [], runtimeLastStartedAt := [] }

/-- A registry-mode service for the already-running-window scenario. -/
def apiSvc : Service :=
  { name := "api2", cwd := "/repo", command := "run-api2", dependsOn := none,
    env := none, port := some 4000, portMode := some .registry, lastStartedAt := none }

/-- Daemon state in which the window of apiSvc exists with a live pane
running a non-shell command, and the registry has no entry for it. -/
def exRunning : DaemonState :=
  { registry := [],
    config := { services := [apiSvc], registeredProjects := [] },
    tmux := { windows := ["api2"], paneDead := fun _ => false,
              paneCommand := fun _ => "node", paneContent := fun _ => "" },
    runtimeDetectedPorts := [], runtimeLastStartedAt := [] }

/-- Shorthand for a service with defaulted fields, used by the dependency
validation scenarios. -/
def svcD (name : String) (deps : Option (List String)) : Service :=
  { name := name, cwd := "/tmp", command := "run", dependsOn := deps,
    env := none, port := none, portMode := none, lastStartedAt := none }

/-- A stored catalog entry with a recorded lastStartedAt, used by the
upsert scenario. -/
def oldApiSvc : Service :=
  { svcD "api" none with lastStartedAt := some "2020-01-01T00:00:00.000Z", port := some 1 }

/-- The first port the allocation scan of ensureRegistryPort considers:
the preferred port (else the base port, else the 3100 default) as
normalised by ensureRegistryPort and once more by findNextAvailablePort. -/
def scanStart (opts : EnsureRegistryPortOptions) : Nat :=
  let preferred := normalizePort (opts.preferredPort.getD (opts.basePort.getD DEFAULT_REGISTRY_PORT))
  (normalizePort (preferred.getD DEFAULT_REGISTRY_PORT)).getD DEFAULT_REGISTRY_PORT

/-! ## General lemmas about the token scanners -/

/-- The character list of a named token text. -/
theorem namedToken_data (n : String) :
    (namedToken n).data =
      '$' :: '\x7b' :: 'P' :: 'O' :: 'R' :: 'T' :: ':' :: (n.data ++ ['\x7d']) := by
  simp [namedToken]

/-- A successful token match decomposes the input as the token text
followed by the returned remainder. -/
theorem namedTokenAt_eq_some {s : List Char} {n : String} {rest' : List Char}
    (h : namedTokenAt s = some (n, rest')) :
    s = '$' :: '\x7b' :: 'P' :: 'O' :: 'R' :: 'T' :: ':' :: (n.data ++ '\x7d' :: rest') := by
  unfold namedTokenAt at h
  split at h
  case _ rest =>
    split at h
    case _ rest'' heq =>
      split at h
      · exact absurd h (by simp)
      · rw [Option.some_inj] at h
        have hn : (⟨List.takeWhile isNameChar rest⟩ : String) = n := congrArg Prod.fst h
        have hr : rest'' = rest' := congrArg Prod.snd h
        subst hr
        subst hn
        have hsplit := List.takeWhile_append_dropWhile isNameChar rest
        rw [heq] at hsplit
        simp only [List.cons.injEq, true_and]
        exact hsplit.symm
    case _ => exact absurd h (by simp)
  case _ => exact absurd h (by simp)

/-- Every list splits as its takeWhile part and its dropWhile part; with an
all-true prefix and a false head of the suffix, the parts are exactly the
prefix and the suffix. -/
theorem takeWhile_append_cons (p : Char → Bool) (xs : List Char) (y : Char) (ys : List Char)
    (hxs : ∀ c ∈ xs, p c = true) (hy : p y = false) :
    ((xs ++ y :: ys).takeWhile p = xs ∧ (xs ++ y :: ys).dropWhile p = y :: ys) := by
  induction xs with
  | nil => simp [List.takeWhile, List.dropWhile, hy]
  | cons x xs ih =>
    have hx : p x = true := hxs x (by simp)
    have ih' := ih (fun c hc => hxs c (by simp [hc]))
    simp [List.takeWhile, List.dropWhile, hx, ih'.1, ih'.2]

/-- A named token embedded at the head of the input is recognised, with
the rest returned, provided the name is nonempty over the name class. -/
theorem namedTokenAt_token (n : String) (rest : List Char)
    (hne : n.data ≠ []) (hok : ∀ c ∈ n.data, isNameChar c = true) :
    namedTokenAt ('$' :: '\x7b' :: 'P' :: 'O' :: 'R' :: 'T' :: ':' :: (n.data ++ '\x7d' :: rest)) =
      some (n, rest) := by
  have hbr : isNameChar '\x7d' = false := by decide
  have hsplit := takeWhile_append_cons isNameChar n.data '\x7d' rest hok hbr
  have hmk : (⟨n.data⟩ : String) = n := by cases n; rfl
  unfold namedTokenAt
  simp only [hsplit.1, hsplit.2, hmk]
  simp [List.isEmpty_iff, hne]

/-- When the replacer preserves every token, the scan is the identity, for
every budget. -/
theorem replaceNamedTokensF_id (repl : String → String) (hrepl : ∀ n, repl n = namedToken n) :
    ∀ fuel s, replaceNamedTokensF repl fuel s = s := by
  intro fuel
  induction fuel with
  | zero => intro s; rfl
  | succ fuel ih =>
    intro s
    match s with
    | [] => rfl
    | c :: rest =>
      rw [replaceNamedTokensF]
      cases h : namedTokenAt (c :: rest) with
      | none => rw [ih rest]
      | some r =>
        have hd := @namedTokenAt_eq_some (c :: rest) r.1 r.2 (by simpa using h)
        show (repl r.1).data ++ replaceNamedTokensF repl fuel r.2 = c :: rest
        rw [hrepl, ih r.2, namedToken_data, hd]
        simp

/-- When the replacer preserves every token, the string-level replacement
is the identity. -/
theorem replaceNamedTokens_id (repl : String → String) (hrepl : ∀ n, repl n = namedToken n)
    (value : String) : replaceNamedTokens repl value = value := by
  unfold replaceNamedTokens
  rw [replaceNamedTokensF_id repl hrepl]

/-! ## General lemmas about the port-registry scan -/

/-- A normalised port with the registry default fallback never exceeds
65535. -/
theorem normalizePort_getD_le (x : Nat) :
    (normalizePort x).getD DEFAULT_REGISTRY_PORT ≤ 65535 := by
  unfold normalizePort DEFAULT_REGISTRY_PORT
  split
  · simp
  · next h =>
    simp only [Option.getD_some]
    simp at h
    omega

/-- The effective scan start never exceeds 65535. -/
theorem scanStart_le (opts : EnsureRegistryPortOptions) : scanStart opts ≤ 65535 :=
  normalizePort_getD_le _

/-- The scan loop returns the least port from its start that is neither
used nor refused by the probe, provided the budget covers it. -/
theorem findPortLoop_eq_some (check : Nat → Bool) (used : List Nat) (q : Nat)
    (hq : q ≤ 65535) (hfree : used.contains q = false) (hcheck : check q = true) :
    ∀ fuel s, s ≤ q → q - s < fuel →
      (∀ p, s ≤ p → p < q → used.contains p = true ∨ check p = false) →
      findPortLoop check used s fuel = some q := by
  intro fuel
  induction fuel with
  | zero => intro s hs hlt _; omega
  | succ fuel ih =>
    intro s hs hlt hmin
    rw [findPortLoop]
    rw [if_neg (by omega : ¬ 65535 < s)]
    by_cases hsq : s = q
    · subst hsq
      rw [if_neg (by rw [hfree]; simp), if_pos hcheck]
    · have hslt : s < q := by omega
      have hnext := ih (s + 1) (by omega) (by omega)
        (fun p hp1 hp2 => hmin p (by omega) hp2)
      rcases hmin s (le_refl s) hslt with h | h
      · rw [if_pos h]
        exact hnext
      · cases hused : used.contains s with
        | true =>
          rw [if_pos rfl]
          exact hnext
        | false =>
          rw [if_neg (by simp), if_neg (by rw [h]; simp)]
          exact hnext

/-- When the name is absent, ensureRegistryPort assigns the least port at
or above the effective scan start that is outside the used set (existing
registry values plus the normalised reserved ports) and accepted by the
probe, appends the mapping and reports the creation (which is exactly the
path that rewrites the registry file). -/
theorem ensureRegistryPort_assigns (ports : List (String × Nat)) (name : String)
    (opts : EnsureRegistryPortOptions) (check : Nat → Bool) (q : Nat)
    (habsent : mapGet ports name = none)
    (hstart : scanStart opts ≤ q) (hq : q ≤ 65535)
    (hfree : (ports.map Prod.snd ++ buildReservedPorts opts.reservedPorts).contains q = false)
    (hcheck : check q = true)
    (hmin : ∀ p, scanStart opts ≤ p → p < q →
      (ports.map Prod.snd ++ buildReservedPorts opts.reservedPorts).contains p = true ∨
        check p = false) :
    ensureRegistryPort ports name opts check =
      .ok { port := q, ports := mapSet ports name q, created := true } := by
  unfold ensureRegistryPort
  rw [habsent]
  simp only [Option.getD_none, ne_eq, not_true_eq_false, if_false]
  unfold findNextAvailablePort
  rw [show ((normalizePort ((normalizePort
        (opts.preferredPort.getD (opts.basePort.getD DEFAULT_REGISTRY_PORT))).getD
        DEFAULT_REGISTRY_PORT)).getD DEFAULT_REGISTRY_PORT) = scanStart opts from rfl]
  rw [findPortLoop_eq_some check _ q hq hfree hcheck _ (scanStart opts) hstart
    (by have := scanStart_le opts; omega) hmin]

/-- When the name is absent and ensureRegistryPort succeeds, the result is
a fresh entry: created is true and the returned map appends the assigned
port for the name. -/
theorem ensureRegistryPort_absent_ok (ports : List (String × Nat)) (name : String)
    (opts : EnsureRegistryPortOptions) (check : Nat → Bool) (r : EnsureRegistryPortResult)
    (habsent : mapGet ports name = none)
    (h : ensureRegistryPort ports name opts check = .ok r) :
    r.created = true ∧ r.ports = mapSet ports name r.port := by
  unfold ensureRegistryPort at h
  rw [habsent] at h
  simp only [Option.getD_none, ne_eq, not_true_eq_false, if_false] at h
  split at h
  · next assigned heq =>
    rw [Except.ok.injEq] at h
    subst h
    exact ⟨rfl, rfl⟩
  · exact absurd h (by simp)

/-! ## General lemmas about the start-route loop -/

/-- When every ordered name is in the graph map and no per-service start
fails, the loop issues a start for exactly the whole order. -/
theorem startOrderLoop_none (startFn : Service → DaemonState → Except String DaemonState)
    (sbn : List (String × Service)) :
    ∀ (order : List String) (st : DaemonState),
      (∀ n ∈ order, mapHas sbn n = true) →
      (startOrderLoop startFn sbn order st).2.2 = none →
      (startOrderLoop startFn sbn order st).2.1 = order := by
  intro order
  induction order with
  | nil => intro st _ _; rfl
  | cons name rest ih =>
    intro st hall hnone
    have hfound : mapHas sbn name = true := hall name (by simp)
    cases hm : mapGet sbn name with
    | none => rw [mapHas, hm] at hfound; simp at hfound
    | some target =>
      cases hf : startFn target st with
      | ok st' =>
        simp only [startOrderLoop, hm, hf] at hnone ⊢
        rw [ih st' (fun n hn => hall n (by simp [hn])) hnone]
      | error e =>
        simp only [startOrderLoop, hm, hf] at hnone
        exact absurd hnone (by simp)

/-- When every ordered name is in the graph map and the loop reports a
failure, the issued starts are exactly a nonempty prefix of the order
ending at the failing target; the targets after it are not started. -/
theorem startOrderLoop_some (startFn : Service → DaemonState → Except String DaemonState)
    (sbn : List (String × Service)) :
    ∀ (order : List String) (st : DaemonState) (e : String),
      (∀ n ∈ order, mapHas sbn n = true) →
      (startOrderLoop startFn sbn order st).2.2 = some e →
      ∃ i, i < order.length ∧
        (startOrderLoop startFn sbn order st).2.1 = order.take (i + 1) := by
  intro order
  induction order with
  | nil => intro st e _ hsome; simp [startOrderLoop] at hsome
  | cons name rest ih =>
    intro st e hall hsome
    have hfound : mapHas sbn name = true := hall name (by simp)
    cases hm : mapGet sbn name with
    | none => rw [mapHas, hm] at hfound; simp at hfound
    | some target =>
      cases hf : startFn target st with
      | ok st' =>
        simp only [startOrderLoop, hm, hf] at hsome ⊢
        obtain ⟨i, hi, htake⟩ := ih st' e (fun n hn => hall n (by simp [hn])) hsome
        refine ⟨i + 1, by simp; omega, ?_⟩
        rw [List.take_succ_cons, htake]
      | error e' =>
        simp only [startOrderLoop, hm, hf] at hsome ⊢
        exact ⟨0, by simp, by simp⟩

/-! ## General lemmas about the extracted-port range -/

/-- The per-line candidate fold keeps the accumulator inside the valid
range. -/
theorem foldPorts_range (ports : List Nat) :
    ∀ acc : Option Nat,
      (acc = none ∨ ∃ p, acc = some p ∧ 1 ≤ p ∧ p ≤ 65535) →
      (let out := ports.foldl
        (fun a port => if 0 < port ∧ port ≤ 65535 then some port else a) acc
       out = none ∨ ∃ p, out = some p ∧ 1 ≤ p ∧ p ≤ 65535) := by
  induction ports with
  | nil => intro acc hacc; exact hacc
  | cons port rest ih =>
    intro acc hacc
    simp only [List.foldl_cons]
    apply ih
    by_cases hp : 0 < port ∧ port ≤ 65535
    · rw [if_pos hp]
      exact Or.inr ⟨port, rfl, hp.1, hp.2⟩
    · rw [if_neg hp]
      exact hacc

/-- The per-lines fold keeps the accumulator inside the valid range. -/
theorem foldLines_range (lines : List (List Char)) :
    ∀ acc : Option Nat,
      (acc = none ∨ ∃ p, acc = some p ∧ 1 ≤ p ∧ p ≤ 65535) →
      (let out := lines.foldl (fun latest line =>
          let lower := line.map Char.toLower
          if containsSubstring "in use".data lower ||
              containsSubstring "eaddrinuse".data lower then latest
          else
            (scanPorts line).foldl (fun acc port =>
              if 0 < port ∧ port ≤ 65535 then some port else acc) latest) acc
       out = none ∨ ∃ p, out = some p ∧ 1 ≤ p ∧ p ≤ 65535) := by
  induction lines with
  | nil => intro acc hacc; exact hacc
  | cons line rest ih =>
    intro acc hacc
    simp only [List.foldl_cons]
    apply ih
    split
    · exact hacc
    · exact foldPorts_range (scanPorts line) acc hacc

/-! ## Small helpers shared by the claim proofs -/

/-- Rebuilding a string from its characters is the identity. -/
theorem string_mk_data (s : String) : String.mk s.data = s := by
  cases s
  rfl

/-- Binding a successful Except value just applies the continuation. -/
theorem except_bind_ok {ε α β : Type} (x : α) (f : α → Except ε β) :
    (do let y ← (Except.ok x : Except ε α); f y) = f x := rfl

/-- The scanners leave the empty input empty, whatever the budget. -/
theorem replaceNamedTokensF_nil (repl : String → String) (fuel : Nat) :
    replaceNamedTokensF repl fuel [] = [] := by
  cases fuel <;> rfl

/-! ## Verified properties -/

/-- C3 (counterexample): the configuration schema accepts a service whose
declared port exceeds 65535 — the schema only requires a positive integer
— refuting the claim that a port is accepted exactly when it lies in
1..65535. -/
theorem devServerServiceSchema_port_counterexample :
    devServerServiceAccepts
      { name := "api", cwd := "/x", command := "run", dependsOn := none,
        env := [], port := some 70000, portMode := none } = true ∧
    ¬((70000 : Int) ≤ 65535) := by
  constructor
  · decide
  · decide

/-- C3 (amended): a declared port is accepted by the configuration schema
exactly when it is a positive integer; the schema enforces no upper
bound. An accepted service has a positive declared port, and any positive
port (however large) is accepted whenever the rest of the definition is. -/
theorem devServerServiceSchema_port_positive :
    (∀ (svc : RawService) (p : Int),
      devServerServiceAccepts svc = true → svc.port = some p → 0 < p) ∧
    (∀ (svc : RawService) (p : Int),
      devServerServiceAccepts { svc with port := none } = true → 0 < p →
      devServerServiceAccepts { svc with port := some p } = true) := by
  constructor
  · intro svc p hacc hport
    unfold devServerServiceAccepts at hacc
    rw [hport] at hacc
    simp only [Bool.and_eq_true, decide_eq_true_eq] at hacc
    exact hacc.1.2
  · intro svc p hacc hp
    unfold devServerServiceAccepts at hacc ⊢
    simp only [Bool.and_eq_true, decide_eq_true_eq] at hacc ⊢
    exact ⟨⟨hacc.1.1, hp⟩, hacc.2⟩

/-- C3 witness. -/
theorem devServerServiceSchema_port_positive_witness :
    (0 : Int) < 8080 ∧
    devServerServiceAccepts
      { name := "api", cwd := "/x", command := "run", dependsOn := none,
        env := [], port := some 8080, portMode := none } = true :=
  ⟨devServerServiceSchema_port_positive.1
      { name := "api", cwd := "/x", command := "run", dependsOn := none,
        env := [], port := some 8080, portMode := none } 8080 (by decide) rfl,
   devServerServiceSchema_port_positive.2
      { name := "api", cwd := "/x", command := "run", dependsOn := none,
        env := [], port := some 8080, portMode := none } 8080 (by decide) (by decide)⟩

/-- C4 (counterexample): a dependency list that is both duplicated and
missing raises the duplicate-dependencies error, not the missing-target
error the claimed priority order (missing first) predicts. -/
theorem createDependencyGraph_priority_counterexample :
    createDependencyGraph [svcD "a" (some ["ghost", "ghost"])] =
      .error (.duplicateDeps "a" ["ghost"]) ∧
    GraphError.duplicateDeps "a" ["ghost"] ≠ GraphError.missingDep "a" "ghost" := by
  constructor
  · rfl
  · decide

/-- C4 (amended): createDependencyGraph validates each service in catalog
order, reporting duplicate dependency entries first, then self-dependency,
then missing targets per dependency; cycles are detected only after every
per-service check passes, and the cycle error carries the offending cycle
path (and its thrown message spells the path out). -/
theorem createDependencyGraph_error_priority :
    createDependencyGraph [svcD "a" (some ["ghost", "ghost"])] =
      .error (.duplicateDeps "a" ["ghost"]) ∧
    createDependencyGraph [svcD "a" (some ["a", "a"])] =
      .error (.duplicateDeps "a" ["a"]) ∧
    createDependencyGraph [svcD "a" (some ["ghost", "a"])] =
      .error (.selfDependency "a") ∧
    createDependencyGraph [svcD "a" (some ["b"]), svcD "b" (some ["a", "ghost"])] =
      .error (.missingDep "b" "ghost") ∧
    createDependencyGraph [svcD "a" (some ["b"]), svcD "b" (some ["a"])] =
      .error (.cycle ["a", "b", "a"]) ∧
    graphErrorMessage (.cycle ["a", "b", "a"]) = "Dependency cycle detected: a -> b -> a." := by
  refine ⟨rfl, rfl, rfl, rfl, rfl, ?_⟩
  rfl

/-- C6 (counterexample): a local compose name that already carries the
project prefix is kept as-is, not renamed to the doubly prefixed
projectName-underscore-localName the claim states. -/
theorem parseComposeServices_prefix_counterexample :
    (parseComposeServices { name := "academy", path := "/tmp/academy", isMonorepo := none }
      [("academy_web", { command := "pnpm dev", dependsOn := none, env := none })]).map
        (·.name) = ["academy_web"] ∧
    "academy_web" ≠ "academy" ++ "_" ++ "academy_web" := by
  constructor
  · rfl
  · decide

/-- C7: when the service already has a (parser-validated) registry entry,
ensureRegistryPort returns that port with the map unchanged and created
false — the path that never rewrites the file — whatever the preferred,
base or reserved ports are. -/
theorem ensureRegistryPort_idempotent (ports : List (String × Nat)) (name : String)
    (opts : EnsureRegistryPortOptions) (check : Nat → Bool) (p : Nat)
    (hvalid : validRegistryPorts ports) (hfound : mapGet ports name = some p) :
    ensureRegistryPort ports name opts check =
      .ok { port := p, ports := ports, created := false } := by
  have hp : 0 < p := by
    unfold mapGet at hfound
    cases hfind : ports.find? (fun e => e.1 == name) with
    | none => rw [hfind] at hfound; simp at hfound
    | some entry =>
      rw [hfind] at hfound
      simp only [Option.map_some'] at hfound
      have hmem := List.mem_of_find?_eq_some hfind
      have hval := hvalid entry hmem
      unfold registryEntryValid at hval
      simp only [Bool.and_eq_true, decide_eq_true_eq] at hval
      simp only [Option.some_inj] at hfound
      omega
  unfold ensureRegistryPort
  rw [hfound]
  simp only [Option.getD_some]
  rw [if_pos (by omega : p ≠ 0)]

/-- C7 witness. -/
theorem ensureRegistryPort_idempotent_witness :
    ensureRegistryPort [("api", 4555)] "api"
      { preferredPort := some 3000, reservedPorts := [3000], basePort := none }
      (fun _ => true) = .ok { port := 4555, ports := [("api", 4555)], created := false } :=
  ensureRegistryPort_idempotent [("api", 4555)] "api"
    { preferredPort := some 3000, reservedPorts := [3000], basePort := none }
    (fun _ => true) 4555
    (fun e he => by simp only [List.mem_singleton] at he; subst he; decide) rfl

/-- C10: extractPortFromLogs returns no port or one within 1..65535; a
port printed with fewer than two digits is never detected (the pattern
needs two to five digits), and candidates above 65535 are ignored rather
than reported. -/
theorem extractPortFromLogs_spec :
    (∀ logs : String, extractPortFromLogs logs = none ∨
      ∃ p, extractPortFromLogs logs = some p ∧ 1 ≤ p ∧ p ≤ 65535) ∧
    extractPortFromLogs "http://localhost:8" = none ∧
    extractPortFromLogs "localhost:70000" = none ∧
    extractPortFromLogs "x localhost:3000 y localhost:70000" = some 3000 ∧
    extractPortFromLogs "Local: http://localhost:5173" = some 5173 := by
  refine ⟨?_, by decide, by decide, by decide, by decide⟩
  intro logs
  unfold extractPortFromLogs
  split
  · exact Or.inl rfl
  · exact foldLines_range (splitOnNewline logs.data) none (Or.inl rfl)

/-- C5: applyPortTemplate expands environment values in two passes — first
every named PORT token is replaced by the named service's port when that
port is valid (1..65535) and kept verbatim otherwise, then the own-port
tokens are replaced only when the own port is valid, an invalid own port
leaving them untouched. The function is total; when nothing resolves to a
valid port the input is returned verbatim, and the spec's concrete
examples are reproduced. -/
theorem applyPortTemplate_two_pass_spec :
    (∀ (value : String) (port : Option Nat) (servicePorts : List (String × Option Nat)),
      isValidPort port = false →
      applyPortTemplate value port servicePorts = namedPass value servicePorts) ∧
    (∀ (value : String) (p : Nat) (servicePorts : List (String × Option Nat)),
      isValidPort (some p) = true →
      applyPortTemplate value (some p) servicePorts =
        selfPass (namedPass value servicePorts) p) ∧
    (∀ (value : String) (port : Option Nat) (servicePorts : List (String × Option Nat)),
      (∀ n q, lookupServicePort servicePorts n = some q → isValidPort (some q) = false) →
      isValidPort port = false →
      applyPortTemplate value port servicePorts = value) ∧
    applyPortTemplate "http://localhost:$PORT" (some 3001) [] = "http://localhost:3001" ∧
    applyPortTemplate "http://localhost:$PORT" none [] = "http://localhost:$PORT" ∧
    applyPortTemplate "http://localhost:$\x7bPORT:api\x7d" none [("api", some 4100)] =
      "http://localhost:4100" ∧
    applyPortTemplate "http://localhost:$\x7bPORT:api\x7d" none [("web", some 4100)] =
      "http://localhost:$\x7bPORT:api\x7d" := by
  have pass1 : ∀ (value : String) (port : Option Nat)
      (servicePorts : List (String × Option Nat)),
      isValidPort port = false →
      applyPortTemplate value port servicePorts = namedPass value servicePorts := by
    intro value port sp hv
    unfold applyPortTemplate
    cases port with
    | none => rfl
    | some p =>
      show (if isValidPort (some p) = true then selfPass (namedPass value sp) p
            else namedPass value sp) = namedPass value sp
      rw [if_neg (by rw [hv]; simp)]
  refine ⟨pass1, ?_, ?_, by decide, by decide, by decide, by decide⟩
  · intro value p sp hv
    unfold applyPortTemplate
    show (if isValidPort (some p) = true then selfPass (namedPass value sp) p
          else namedPass value sp) = selfPass (namedPass value sp) p
    rw [if_pos hv]
  · intro value port sp hlookup hv
    rw [pass1 value port sp hv]
    unfold namedPass
    apply replaceNamedTokens_id
    intro n
    unfold namedReplacer
    cases hl : lookupServicePort sp n with
    | none => rfl
    | some q =>
      show (if isValidPort (some q) = true then toString q else namedToken n) = namedToken n
      rw [if_neg (by rw [hlookup n q hl]; simp)]

/-- C5 witness. -/
theorem applyPortTemplate_two_pass_spec_witness :
    applyPortTemplate "a$PORT" none [] = namedPass "a$PORT" [] ∧
    applyPortTemplate "b$PORT and $\x7bPORT:api\x7d" (some 70000) [] =
      "b$PORT and $\x7bPORT:api\x7d" ∧
    applyPortTemplate "c$PORT" (some 9) [] = selfPass (namedPass "c$PORT" []) 9 :=
  ⟨applyPortTemplate_two_pass_spec.1 "a$PORT" none [] (by decide),
   applyPortTemplate_two_pass_spec.2.2.1 "b$PORT and $\x7bPORT:api\x7d" (some 70000) []
     (fun n q h => by simp [lookupServicePort, List.find?] at h) (by decide),
   applyPortTemplate_two_pass_spec.2.1 "c$PORT" 9 [] (by decide)⟩

/-- C2: for a name absent from the registry, ensureRegistryPort scans
upward from the preferred port (else the base port, else 3100) through
65535, skipping existing registry values and the normalised reserved
ports, returns the first remaining port accepted by the availability
probe, and persists it; with preferred 3000, reserved 3000 and 3001, and a
probe failing only at 3002, the call returns 3003 and the persisted map
gains that entry. -/
theorem ensureRegistryPort_allocation_spec :
    (∀ (ports : List (String × Nat)) (name : String) (opts : EnsureRegistryPortOptions)
      (check : Nat → Bool) (q : Nat),
      mapGet ports name = none →
      scanStart opts ≤ q → q ≤ 65535 →
      (ports.map Prod.snd ++ buildReservedPorts opts.reservedPorts).contains q = false →
      check q = true →
      (∀ p, scanStart opts ≤ p → p < q →
        (ports.map Prod.snd ++ buildReservedPorts opts.reservedPorts).contains p = true ∨
          check p = false) →
      ensureRegistryPort ports name opts check =
        .ok { port := q, ports := mapSet ports name q, created := true }) ∧
    ensureRegistryPort [] "api"
      { preferredPort := some 3000, reservedPorts := [3000, 3001], basePort := none }
      (fun p => !(p == 3002)) =
      .ok { port := 3003, ports := [("api", 3003)], created := true } :=
  ⟨fun ports name opts check q habsent hstart hq hfree hcheck hmin =>
    ensureRegistryPort_assigns ports name opts check q habsent hstart hq hfree hcheck hmin,
   rfl⟩

/-- C2 witness: the spec scenario satisfies the general allocation
statement with q = 3003. -/
theorem ensureRegistryPort_allocation_spec_witness :
    ensureRegistryPort [] "api"
      { preferredPort := some 3000, reservedPorts := [3000, 3001], basePort := none }
      (fun p => !(p == 3002)) =
      .ok { port := 3003,
            ports := mapSet [] "api" 3003,
            created := true } :=
  ensureRegistryPort_allocation_spec.1 [] "api"
    { preferredPort := some 3000, reservedPorts := [3000, 3001], basePort := none }
    (fun p => !(p == 3002)) 3003 rfl (by decide) (by decide) (by decide) (by decide)
    (fun p h1 h2 => by
      have hscan : scanStart ⟨some 3000, [3000, 3001], none⟩ = 3000 := by decide
      rw [hscan] at h1
      have hcases : p = 3000 ∨ p = 3001 ∨ p = 3002 := by omega
      rcases hcases with h | h | h <;> subst h
      · left; decide
      · left; decide
      · right; decide)

/-- C8: when the incoming service carries no lastStartedAt and the catalog
already holds an entry of that name, upsertService replaces that entry in
place keeping the previously stored lastStartedAt, leaves every other
index (hence every service of a different name) unchanged, and does not
touch the registered projects. -/
theorem upsertService_preserves_lastStartedAt (config : DevServerConfig) (service : Service)
    (i : Nat) (e : Service)
    (hidx : config.services.findIdx? (fun item => item.name == service.name) = some i)
    (hget : config.services.get? i = some e)
    (hnone : service.lastStartedAt = none) :
    (upsertService config service).services =
      config.services.set i { service with lastStartedAt := e.lastStartedAt } ∧
    (upsertService config service).services.get? i =
      some { service with lastStartedAt := e.lastStartedAt } ∧
    (∀ j, j ≠ i → (upsertService config service).services.get? j = config.services.get? j) ∧
    (upsertService config service).registeredProjects = config.registeredProjects := by
  have hset : (upsertService config service).services =
      config.services.set i { service with lastStartedAt := e.lastStartedAt } := by
    unfold upsertService
    rw [hidx]
    simp only [hget, hnone]
    rfl
  have hlen : i < config.services.length := by
    by_contra hge
    rw [List.get?_eq_none.mpr (by omega)] at hget
    exact absurd hget (by simp)
  refine ⟨hset, ?_, ?_, ?_⟩
  · rw [hset]
    exact List.get?_set_eq_of_lt _ hlen
  · intro j hj
    rw [hset]
    exact List.get?_set_ne _ _ (Ne.symm hj)
  · unfold upsertService
    rw [hidx]

/-- C8 witness. -/
theorem upsertService_preserves_lastStartedAt_witness :
    (upsertService { services := [oldApiSvc], registeredProjects := [] }
      (svcD "api" none)).services =
      [{ svcD "api" none with lastStartedAt := some "2020-01-01T00:00:00.000Z" }] := by
  have h := upsertService_preserves_lastStartedAt
    { services := [oldApiSvc], registeredProjects := [] }
    (svcD "api" none) 0 oldApiSvc rfl rfl rfl
  rw [h.1]
  rfl

/-- A single named token at the head of the input, over a name in the name
class, is replaced in one step. -/
theorem replaceNamedTokensF_token_head (repl : String → String) (n : String) (fuel : Nat)
    (hne : n.data ≠ []) (hok : ∀ c ∈ n.data, isNameChar c = true) :
    replaceNamedTokensF repl (fuel + 1) (namedToken n).data = (repl n).data := by
  rw [namedToken_data, replaceNamedTokensF, namedTokenAt_token n [] hne hok]
  show (repl n).data ++ replaceNamedTokensF repl fuel [] = (repl n).data
  rw [replaceNamedTokensF_nil, List.append_nil]

/-- C6 (amended): under a registered project, each compose service is
renamed with prefixServiceName — the project prefix is prepended unless
the local name already carries it; dependency entries naming a local
service are mapped through the same prefixer while other dependency
strings are preserved as written; a named PORT token over a name in the
name class is rewritten to the token of the prefixed name exactly when the
name is local, and preserved otherwise; the spec's academy scenario is
reproduced. -/
theorem parseComposeServices_rewrite_spec :
    (∀ (project : RegisteredProject) (raw : List (String × ComposeDef)),
      (parseComposeServices project raw).map (·.name) =
        raw.map (fun e => prefixServiceName project.name e.1)) ∧
    (∀ (project : RegisteredProject) (raw : List (String × ComposeDef)),
      (parseComposeServices project raw).map (·.dependsOn) =
        raw.map (fun e => e.2.dependsOn.map (List.map (fun d =>
          if (raw.map Prod.fst).contains d then prefixServiceName project.name d else d)))) ∧
    (∀ (projectName : String) (locals : List String) (n : String),
      n.data ≠ [] → (∀ c ∈ n.data, isNameChar c = true) →
      rewriteLocalPortReferences (namedToken n) locals projectName =
        (if locals.contains n then namedToken (prefixServiceName projectName n)
         else namedToken n)) ∧
    (∀ (p l : String), strStartsWith l (p ++ "_") = false →
      prefixServiceName p l = p ++ "_" ++ l) ∧
    (∀ (p l : String), strStartsWith l (p ++ "_") = true → prefixServiceName p l = l) ∧
    (parseComposeServices { name := "academy", path := "/tmp/academy", isMonorepo := none }
      [("web", { command := "pnpm dev", dependsOn := some ["api", "postgres"],
                 env := some [("API_URL", "http://localhost:$\x7bPORT:api\x7d")] }),
       ("api", { command := "pnpm api", dependsOn := none, env := none })] =
     [{ name := "academy_web", command := "pnpm dev",
        dependsOn := some ["academy_api", "postgres"],
        env := some [("API_URL", "http://localhost:$\x7bPORT:academy_api\x7d")],
        projectName := "academy" },
      { name := "academy_api", command := "pnpm api", dependsOn := none, env := none,
        projectName := "academy" }]) := by
  refine ⟨?_, ?_, ?_, ?_, ?_, by decide⟩
  · intro project raw
    simp only [parseComposeServices, List.map_map]
    rfl
  · intro project raw
    simp only [parseComposeServices, List.map_map]
    rfl
  · intro projectName locals n hne hok
    unfold rewriteLocalPortReferences replaceNamedTokens
    have hlen : (namedToken n).data.length = ((n.data.length + 7) + 1) := by
      rw [namedToken_data]
      simp only [List.length_cons, List.length_append, List.length_singleton, List.length_nil]
    rw [hlen]
    rw [replaceNamedTokensF_token_head _ n _ hne hok]
  · intro p l h
    unfold prefixServiceName
    rw [if_neg (by rw [h]; simp)]
  · intro p l h
    unfold prefixServiceName
    rw [if_pos h]

/-- C6 witness. -/
theorem parseComposeServices_rewrite_spec_witness :
    rewriteLocalPortReferences (namedToken "api") ["api", "web"] "academy" =
      namedToken (prefixServiceName "academy" "api") ∧
    prefixServiceName "academy" "web" = "academy" ++ "_" ++ "web" ∧
    prefixServiceName "academy" "academy_web" = "academy_web" := by
  refine ⟨?_, ?_, ?_⟩
  · have h := parseComposeServices_rewrite_spec.2.2.1 "academy" ["api", "web"] "api"
      (by decide) (by decide)
    rw [h]
    rfl
  · exact parseComposeServices_rewrite_spec.2.2.2.1 "academy" "web" (by decide)
  · exact parseComposeServices_rewrite_spec.2.2.2.2.1 "academy" "academy_web" (by decide)

/-- C1: the start route issues the per-service starts of the dependency
closure of the requested service (the service included) in
dependencies-first topological order, one at a time; when no start fails
the whole order is issued and the route replies ok, and a failing
per-service start stops the traversal at that target — the targets after
it get no start — and the route replies with a 500 error. In the
three-service scenario (web depending on api and db, api on db, api in
registry mode) the successful run issues db, api, web in that order, and
the run whose registry allocation fails at api issues db then api, never
web, and replies 500 with the registry failure message. -/
theorem postStart_traversal_spec :
    (∀ (avail : Nat → Bool) (now : String) (cs : List Service)
      (sources : List (String × ServiceSource)) (name : String) (st : DaemonState)
      (svc : Service) (graph : DependencyGraph) (depNames : List String),
      findService cs name = some svc →
      createDependencyGraph cs = .ok graph →
      collectDependencies graph svc.name = .ok depNames →
      (∀ n ∈ topoSort graph depNames, mapHas graph.servicesByName n = true) →
      ((postStart avail now cs sources name st).1 = .ok →
        (postStart avail now cs sources name st).2.2 = topoSort graph depNames) ∧
      (∀ e, (postStart avail now cs sources name st).1 = .serverError e →
        ∃ i, i < (topoSort graph depNames).length ∧
          (postStart avail now cs sources name st).2.2 =
            (topoSort graph depNames).take (i + 1))) ∧
    ((postStart (fun _ => true) "2024-01-01T00:00:00.000Z" exCatalog [] "web" exState0).1 =
        .ok ∧
     (postStart (fun _ => true) "2024-01-01T00:00:00.000Z" exCatalog [] "web" exState0).2.2 =
        ["db", "api", "web"]) ∧
    ((postStart (fun _ => false) "2024-01-01T00:00:00.000Z" exCatalog [] "web" exState0).1 =
        .serverError "failed to read port registry" ∧
     (postStart (fun _ => false) "2024-01-01T00:00:00.000Z" exCatalog [] "web" exState0).2.2 =
        ["db", "api"]) := by
  refine ⟨?_, ⟨rfl, rfl⟩, ⟨rfl, rfl⟩⟩
  intro avail now cs sources name st svc graph depNames hfind hgraph hcollect hall
  have hps : postStart avail now cs sources name st =
      (match (startOrderLoop (startServiceWindow avail now cs sources)
          graph.servicesByName (topoSort graph depNames) st).2.2 with
       | some e => (.serverError e,
          (startOrderLoop (startServiceWindow avail now cs sources)
            graph.servicesByName (topoSort graph depNames) st).1,
          (startOrderLoop (startServiceWindow avail now cs sources)
            graph.servicesByName (topoSort graph depNames) st).2.1)
       | none => (.ok,
          (startOrderLoop (startServiceWindow avail now cs sources)
            graph.servicesByName (topoSort graph depNames) st).1,
          (startOrderLoop (startServiceWindow avail now cs sources)
            graph.servicesByName (topoSort graph depNames) st).2.1)) := by
    simp only [postStart, hfind, hgraph, hcollect]
  cases hr : (startOrderLoop (startServiceWindow avail now cs sources)
      graph.servicesByName (topoSort graph depNames) st).2.2 with
  | none =>
    rw [hps, hr]
    constructor
    · intro _
      exact startOrderLoop_none _ _ _ _ hall hr
    · intro e he
      exact absurd he (by simp)
  | some e' =>
    rw [hps, hr]
    constructor
    · intro hok
      exact absurd hok (by simp)
    · intro e he
      exact startOrderLoop_some _ _ _ _ e' hall hr

/-- C1 witness: the scenario instantiates the general traversal statement. -/
theorem postStart_traversal_spec_witness :
    (postStart (fun _ => false) "2024-01-01T00:00:00.000Z" exCatalog [] "web" exState0).1 =
      .serverError "failed to read port registry" →
    ∃ i, i < (["db", "api", "web"] : List String).length ∧
      (postStart (fun _ => false) "2024-01-01T00:00:00.000Z" exCatalog [] "web"
        exState0).2.2 = (["db", "api", "web"] : List String).take (i + 1) := by
  intro he
  have hgeneral := postStart_traversal_spec.1 (fun _ => false) "2024-01-01T00:00:00.000Z"
    exCatalog [] "web" exState0 (exCatalog.get ⟨2, by decide⟩)
    ((createDependencyGraph exCatalog).toOption.getD
      ⟨[], [], [], []⟩)
    ["web", "api", "db"] rfl rfl rfl (by decide)
  have horder : topoSort ((createDependencyGraph exCatalog).toOption.getD ⟨[], [], [], []⟩)
      ["web", "api", "db"] = ["db", "api", "web"] := rfl
  rw [horder] at hgeneral
  exact hgeneral.2 "failed to read port registry" he

/-- C9: a start requested for a service whose window already exists with a
live pane running a non-shell command is a supervisor no-op — the tmux
session, the runtime lastStartedAt map and the configuration file are all
untouched — yet port resolution has already run: for a registry-mode
service with no registry entry, the start path still allocates a port and
persists it into the registry map (created is true, the path that rewrites
the registry file) even though no window is created or restarted. -/
theorem startServiceWindow_running_noop
    (avail : Nat → Bool) (now : String) (services : List Service)
    (sources : List (String × ServiceSource)) (service : Service) (st : DaemonState)
    (r : EnsureRegistryPortResult)
    (hmode : service.portMode = some .registry)
    (hwin : st.tmux.windows.contains service.name = true)
    (halive : st.tmux.paneDead service.name = false)
    (hbusy : IDLE_COMMANDS.contains (st.tmux.paneCommand service.name) = false)
    (habsent : mapGet st.registry service.name = none)
    (hreg : ensureRegistryPort st.registry service.name
      { preferredPort := service.port,
        reservedPorts := collectReservedPorts services service.name,
        basePort := none } avail = .ok r) :
    startServiceWindow avail now services sources service st =
      .ok { st with registry := mapSet st.registry service.name r.port } ∧
    r.created = true := by
  have habs := ensureRegistryPort_absent_ok _ _ _ _ _ habsent hreg
  have hmode' : resolvePortMode service = .registry := by
    unfold resolvePortMode
    rw [hmode]
    rfl
  have hrss : resolveStartSettings avail services service st =
      .ok ({ portMode := .registry, resolvedPort := some r.port, baseline := "" },
           { st with registry := r.ports }) := by
    simp only [resolveStartSettings, hmode', hreg]
  have hsw : startWindow service st.tmux = (st.tmux, false) := by
    simp only [startWindow, hwin, halive, hbusy, Bool.not_false, Bool.true_and, Bool.and_true]
    rfl
  constructor
  · rw [← habs.2]
    simp only [startServiceWindow, hrss, except_bind_ok, hsw]
    rfl
  · exact habs.1

/-- C9 witness. -/
theorem startServiceWindow_running_noop_witness :
    startServiceWindow (fun _ => true) "2024-01-01T00:00:00.000Z" [apiSvc] [] apiSvc
      exRunning = .ok { exRunning with registry := mapSet exRunning.registry "api2" 4000 } ∧
    ({ port := 4000, ports := [("api2", 4000)], created := true } :
      EnsureRegistryPortResult).created = true := by
  have h := startServiceWindow_running_noop (fun _ => true) "2024-01-01T00:00:00.000Z"
    [apiSvc] [] apiSvc exRunning
    { port := 4000, ports := [("api2", 4000)], created := true }
    rfl (by decide) rfl (by decide) rfl rfl
  exact ⟨h.1, h.2⟩

end DevServers
